import Mathlib

/-!
Verification development for the `timestamp` crate (src/lib.rs): a single
`Timestamp` value type (seconds + nanoseconds since the Unix epoch) with
conversions to and from a calendar datetime (chrono), floating point and
integer epoch seconds, a protobuf-style binary form (prost), and a
sea_query driver value, plus a build-time storage-encoding choice.

Machine integers are modelled as `Int`/`Nat` with explicit wrapping where
the Rust code casts (`as u32`, `as u64`, `as i32`, `as i64`).  The IEEE-754
`f64` payloads that appear in `sea_query::Value::Double`/`Float` are kept
abstract as a type parameter `α`; every theorem quantifies over the
conversion functions on `α`, so the results hold in particular for the real
floating-point instances.
-/

/-- Rust `i32 as u32`: reinterpret a signed 32-bit value as unsigned. -/
def u32OfI32 (n : Int) : Int := n % 4294967296

/-- Rust `u32 as i32`: reinterpret an unsigned 32-bit value as signed. -/
def i32OfU32 (n : Int) : Int :=
  if n % 4294967296 < 2147483648 then n % 4294967296
  else n % 4294967296 - 4294967296

/-- Rust `i64 as u64` (also `i32 as u64`, which first sign-extends):
the two's-complement bit pattern of a signed value as a natural number. -/
def u64OfI64 (n : Int) : Nat := (n % 18446744073709551616).toNat

/-- Rust `u64 as i64`: reinterpret an unsigned 64-bit value as signed. -/
def i64OfU64 (n : Nat) : Int :=
  if n < 9223372036854775808 then (n : Int)
  else (n : Int) - 18446744073709551616

/-- Rust `u64 as i32`: truncate to the low 32 bits, then reinterpret. -/
def i32OfU64 (n : Nat) : Int :=
  if n % 4294967296 < 2147483648 then ((n % 4294967296 : Nat) : Int)
  else ((n % 4294967296 : Nat) : Int) - 4294967296

/-- The `Timestamp` struct of src/lib.rs: `seconds: i64`, `nanoseconds: i32`. -/
structure Timestamp where
  seconds : Int
  nanoseconds : Int
  deriving DecidableEq, Repr

/-- The `Default` implementation that the prost `Message` derive provides:
all fields zero. -/
def Timestamp.defaultValue : Timestamp := ⟨0, 0⟩

/-- Source `Timestamp::is_empty`: `self.seconds == 0 && self.nanoseconds == 0`. -/
def Timestamp.is_empty (t : Timestamp) : Bool :=
  t.seconds == 0 && t.nanoseconds == 0

/-- Model of chrono `DateTime<Utc>` as its observable components:
`days` is the proleptic-Gregorian day count (`num_days_from_ce`), `secs`
the seconds from midnight (`num_seconds_from_midnight`), and `frac` the
nanosecond fraction (`nanosecond()`, which may reach into
`[1_000_000_000, 2_000_000_000)` to represent a leap second). -/
structure DateTimeUtc where
  days : Int
  secs : Int
  frac : Int
  deriving DecidableEq, Repr

/-- Day number (`num_days_from_ce`) of the Unix epoch 1970-01-01. -/
def unixEpochDay : Int := 719163

/-- Day number of chrono `NaiveDate::MIN` (January 1 of year -262143). -/
def minDayFromCE : Int := -95746129

/-- Day number of chrono `NaiveDate::MAX` (December 31 of year 262142). -/
def maxDayFromCE : Int := 95745399

/-- Model of chrono `DateTime::<Utc>::from_timestamp(secs, nsecs)`: split the
epoch seconds into a day count and seconds-from-midnight with Euclidean
division; the result exists iff the day is a representable date and the
nanosecond argument is below 2_000_000_000 (values in
`[1e9, 2e9)` are accepted as leap-second representations). -/
def DateTime.from_timestamp (secs : Int) (nsecs : Int) : Option DateTimeUtc :=
  if minDayFromCE ≤ secs / 86400 + unixEpochDay ∧
      secs / 86400 + unixEpochDay ≤ maxDayFromCE ∧
      nsecs < 2000000000 then
    some ⟨secs / 86400 + unixEpochDay, secs % 86400, nsecs⟩
  else
    none

/-- Model of chrono `DateTime::timestamp()`. -/
def DateTimeUtc.timestamp (d : DateTimeUtc) : Int :=
  (d.days - unixEpochDay) * 86400 + d.secs

/-- Model of chrono `DateTime::timestamp_subsec_nanos()` (a `u32`). -/
def DateTimeUtc.timestamp_subsec_nanos (d : DateTimeUtc) : Int := d.frac

/-- Source `impl<TZ: TimeZone> From<DateTime<TZ>> for Timestamp`:
`seconds = v.timestamp()`, `nanoseconds = v.timestamp_subsec_nanos() as i32`.
The conversion depends only on the instant, so it is stated on the UTC view
of the datetime. -/
def Timestamp.from_datetime (d : DateTimeUtc) : Timestamp :=
  ⟨d.timestamp, i32OfU32 d.timestamp_subsec_nanos⟩

/-- Source `impl From<Timestamp> for DateTime<Utc>` (also the `datetime()`
method): `DateTime::from_timestamp(v.seconds, v.nanoseconds as u32)`, with
`unwrap_or_else(|| DateTime::from_timestamp(0, 0).unwrap())` falling back to
the Unix epoch instant.  The inner `unwrap` cannot fail; its `getD` default
is the same epoch value it would unwrap to. -/
def Timestamp.datetime (t : Timestamp) : DateTimeUtc :=
  (DateTime.from_timestamp t.seconds (u32OfI32 t.nanoseconds)).getD
    ((DateTime.from_timestamp 0 0).getD ⟨unixEpochDay, 0, 0⟩)

/-- Source `impl From<i64> for Timestamp`: `seconds = input`, `nanoseconds = 0`. -/
def Timestamp.from_i64 (seconds : Int) : Timestamp := ⟨seconds, 0⟩

/-- Source `impl From<Timestamp> for i64`: `ts.seconds`. -/
def Timestamp.into_i64 (t : Timestamp) : Int := t.seconds

/-- Decidable in-range predicate for the calendar reconstruction: exactly the
condition under which the modelled `DateTime::from_timestamp` succeeds on the
fields of a `Timestamp` (day count representable, `u32`-cast nanoseconds
below chrono's 2_000_000_000 bound). -/
def calendarInRange (s n : Int) : Prop :=
  minDayFromCE ≤ s / 86400 + unixEpochDay ∧
    s / 86400 + unixEpochDay ≤ maxDayFromCE ∧
    u32OfI32 n < 2000000000

instance (s n : Int) : Decidable (calendarInRange s n) := by
  unfold calendarInRange
  infer_instance

/-- Model of the `sea_query::Value` enum restricted to its chrono/numeric/
text variants (feature-gated variants such as uuid or json are modelled with
abstract payloads; only the variant tag matters for the dispatch in
`ValueType::try_from`).  Every payload is wrapped in `Option`, as in
sea_query.  The `f64`/`f32` payloads are the abstract type `α`. -/
inductive SqlValue (α : Type) where
  | bool (v : Option Bool)
  | tinyInt (v : Option Int)
  | smallInt (v : Option Int)
  | int (v : Option Int)
  | bigInt (v : Option Int)
  | tinyUnsigned (v : Option Int)
  | smallUnsigned (v : Option Int)
  | unsigned (v : Option Int)
  | bigUnsigned (v : Option Int)
  | float (v : Option α)
  | double (v : Option α)
  | string (v : Option String)
  | char (v : Option Char)
  | bytes (v : Option (List Nat))
  | chronoDate (v : Option Int)
  | chronoTime (v : Option (Int × Int))
  | chronoDateTime (v : Option DateTimeUtc)
  | chronoDateTimeUtc (v : Option DateTimeUtc)
  | chronoDateTimeLocal (v : Option DateTimeUtc)
  | chronoDateTimeWithTimeZone (v : Option (DateTimeUtc × Int))
  | uuid (v : Option Nat)
  | json (v : Option String)
  | decimal (v : Option (Int × Nat))

/-- The variant tag of a `SqlValue`. -/
inductive ValueKind where
  | bool | tinyInt | smallInt | int | bigInt
  | tinyUnsigned | smallUnsigned | unsigned | bigUnsigned
  | float | double | string | char | bytes
  | chronoDate | chronoTime | chronoDateTime | chronoDateTimeUtc
  | chronoDateTimeLocal | chronoDateTimeWithTimeZone
  | uuid | json | decimal
  deriving DecidableEq, Repr

def SqlValue.kind {α : Type} : SqlValue α → ValueKind
  | .bool _ => .bool
  | .tinyInt _ => .tinyInt
  | .smallInt _ => .smallInt
  | .int _ => .int
  | .bigInt _ => .bigInt
  | .tinyUnsigned _ => .tinyUnsigned
  | .smallUnsigned _ => .smallUnsigned
  | .unsigned _ => .unsigned
  | .bigUnsigned _ => .bigUnsigned
  | .float _ => .float
  | .double _ => .double
  | .string _ => .string
  | .char _ => .char
  | .bytes _ => .bytes
  | .chronoDate _ => .chronoDate
  | .chronoTime _ => .chronoTime
  | .chronoDateTime _ => .chronoDateTime
  | .chronoDateTimeUtc _ => .chronoDateTimeUtc
  | .chronoDateTimeLocal _ => .chronoDateTimeLocal
  | .chronoDateTimeWithTimeZone _ => .chronoDateTimeWithTimeZone
  | .uuid _ => .uuid
  | .json _ => .json
  | .decimal _ => .decimal

/-- Whether the driver value is a null (payload `None`) of its kind. -/
def SqlValue.isNull {α : Type} : SqlValue α → Bool
  | .bool v => v.isNone
  | .tinyInt v => v.isNone
  | .smallInt v => v.isNone
  | .int v => v.isNone
  | .bigInt v => v.isNone
  | .tinyUnsigned v => v.isNone
  | .smallUnsigned v => v.isNone
  | .unsigned v => v.isNone
  | .bigUnsigned v => v.isNone
  | .float v => v.isNone
  | .double v => v.isNone
  | .string v => v.isNone
  | .char v => v.isNone
  | .bytes v => v.isNone
  | .chronoDate v => v.isNone
  | .chronoTime v => v.isNone
  | .chronoDateTime v => v.isNone
  | .chronoDateTimeUtc v => v.isNone
  | .chronoDateTimeLocal v => v.isNone
  | .chronoDateTimeWithTimeZone v => v.isNone
  | .uuid v => v.isNone
  | .json v => v.isNone
  | .decimal v => v.isNone

/-- The unit error type `sea_query::ValueTypeErr`. -/
inductive ValueTypeErr where
  | mk
  deriving DecidableEq

/-- Source `impl sea_query::ValueType for Timestamp`, `fn try_from`:
dispatch on the driver value's variant.  The five recognized some-valued
patterns convert via the matching `From` impl; everything else (including
null payloads of recognized kinds) falls to `Ok(Timestamp::default())`.
`fconv` is the abstracted `From<f64> for Timestamp` conversion used by the
`Double` arm. -/
def ValueType.try_from {α : Type} (fconv : α → Timestamp) :
    SqlValue α → Except ValueTypeErr Timestamp
  | .chronoDateTimeWithTimeZone (some p) => .ok (Timestamp.from_datetime p.1)
  | .chronoDateTimeUtc (some d) => .ok (Timestamp.from_datetime d)
  | .bigInt (some v) => .ok (Timestamp.from_i64 v)
  | .double (some f) => .ok (fconv f)
  | .int (some v) => .ok (Timestamp.from_i64 v)
  | _ => .ok Timestamp.defaultValue

/-- True exactly on the five some-valued patterns that `try_from` recognizes
(a timezone-aware datetime, a UTC datetime, a big integer, a double, or a
plain integer, each with a present payload). -/
def matchesRecognized {α : Type} : SqlValue α → Bool
  | .chronoDateTimeWithTimeZone (some _) => true
  | .chronoDateTimeUtc (some _) => true
  | .bigInt (some _) => true
  | .double (some _) => true
  | .int (some _) => true
  | _ => false

/-- The two cargo features `sqlite_double` and `sqlite_int` that select the
storage encoding at build time (`cfg!` flags in the source). -/
structure BuildCfg where
  sqlite_double : Bool
  sqlite_int : Bool
  deriving DecidableEq, Repr

/-- The three storage-encoding modes of the spec. -/
inductive StorageEncoding where
  | doubleSeconds
  | integerSeconds
  | datetimeWithTimezone
  deriving DecidableEq, Repr

/-- The encoding a build configuration selects: `sqlite_double` wins, then
`sqlite_int`, and the datetime encoding is the default (this is the
`if cfg! / else if cfg! / else` cascade shared by all four trait impls). -/
def activeEncoding (cfg : BuildCfg) : StorageEncoding :=
  if cfg.sqlite_double then .doubleSeconds
  else if cfg.sqlite_int then .integerSeconds
  else .datetimeWithTimezone

/-- The driver-native value kind each encoding mode writes. -/
def StorageEncoding.valueKind : StorageEncoding → ValueKind
  | .doubleSeconds => .double
  | .integerSeconds => .bigInt
  | .datetimeWithTimezone => .chronoDateTimeUtc

/-- Source `impl From<Timestamp> for sea_query::Value`: emit the one native
value kind the active build configuration specifies.  `tconv` is the
abstracted `From<Timestamp> for f64` conversion used by the double branch. -/
def valueOfTimestamp (α : Type) (cfg : BuildCfg) (tconv : Timestamp → α)
    (t : Timestamp) : SqlValue α :=
  if cfg.sqlite_double then .double (some (tconv t))
  else if cfg.sqlite_int then .bigInt (some (Timestamp.into_i64 t))
  else .chronoDateTimeUtc (some t.datetime)

/-- Source `impl sea_orm::sea_query::Nullable for Timestamp`, `fn null`:
the null sentinel of the native kind the active build configuration uses. -/
def nullValue (α : Type) (cfg : BuildCfg) : SqlValue α :=
  if cfg.sqlite_double then .double none
  else if cfg.sqlite_int then .bigInt none
  else .chronoDateTimeUtc none

/-- The variants of `sea_orm::DbErr` used by this crate (only
`ConvertFromU64` appears in the source; a second variant keeps the model an
actual sum). -/
inductive DbErr where
  | convertFromU64 (msg : String)
  | custom (msg : String)
  deriving DecidableEq, Repr

/-- The error message of the unsupported-construction error in the source. -/
def timestampsNotSupported : String := "Timestamps not supported"

/-- Source `impl sea_orm::TryFromU64 for Timestamp`: always
`Err(DbErr::ConvertFromU64("Timestamps not supported"))`. -/
def TryFromU64.try_from_u64 (_n : Nat) : Except DbErr Timestamp :=
  .error (DbErr.convertFromU64 timestampsNotSupported)

/-- Prost `encode_varint`: little-endian base-128, continuation bit set on
every byte except the last. -/
def encodeVarint (n : Nat) : List Nat :=
  if h : n < 128 then [n]
  else (n % 128 + 128) :: encodeVarint (n / 128)
termination_by n
decreasing_by
  exact Nat.div_lt_self (by omega) (by omega)

/-- Prost `decode_varint`, position-indexed: byte `i` contributes its low
seven bits at shift `7*i`; at most ten bytes, and the tenth byte must fit a
`u64` (prost rejects a tenth byte that is `≥ 2` or has its continuation bit
set). -/
def decodeVarintAux : Nat → List Nat → Option (Nat × List Nat)
  | _, [] => none
  | i, b :: rest =>
    if b < 128 then
      if i = 9 ∧ 2 ≤ b then none else some (b * 128 ^ i, rest)
    else
      if i = 9 then none
      else
        match decodeVarintAux (i + 1) rest with
        | some (v, r) => some (b % 128 * 128 ^ i + v, r)
        | none => none

def decodeVarint (bytes : List Nat) : Option (Nat × List Nat) :=
  decodeVarintAux 0 bytes

/-- Prost `skip_field`: consume one unknown field's payload.  Wire types:
0 varint, 1 sixty-four-bit, 2 length-delimited, 3 group start (skip nested
fields until the matching group end), 4 group end (an error at top level),
5 thirty-two-bit.  `fuel` bounds the recursion; every step consumes input,
so any fuel at least the byte count is enough. -/
def skipField : Nat → Nat → Nat → List Nat → Option (List Nat)
  | 0, _, _, _ => none
  | fuel + 1, wt, tag, bytes =>
    if wt = 0 then
      match decodeVarint bytes with
      | some (_, r) => some r
      | none => none
    else if wt = 1 then
      if 8 ≤ bytes.length then some (bytes.drop 8) else none
    else if wt = 2 then
      match decodeVarint bytes with
      | some (len, r) => if len ≤ r.length then some (r.drop len) else none
      | none => none
    else if wt = 5 then
      if 4 ≤ bytes.length then some (bytes.drop 4) else none
    else if wt = 3 then
      match decodeVarint bytes with
      | some (key, r) =>
        if 4294967295 < key then none
        else
          let itag := key / 8
          let iwt := key % 8
          if 5 < iwt then none
          else if itag = 0 then none
          else if iwt = 4 then (if itag = tag then some r else none)
          else
            match skipField fuel iwt itag r with
            | some r2 => skipField fuel 3 tag r2
            | none => none
      | none => none
    else none

/-- The prost `Message::decode` loop for the derived `Timestamp` message:
read a key varint, reject keys above `u32::MAX`, invalid wire types and tag
zero; merge field 1 (varint, `as i64`) into `seconds` and field 2 (varint,
`as i32`) into `nanoseconds`; skip every other field.  `fuel` bounds the
loop; every iteration consumes at least one byte. -/
def decodeLoop : Nat → Timestamp → List Nat → Option Timestamp
  | _, t, [] => some t
  | 0, _, _ :: _ => none
  | fuel + 1, t, b :: bs =>
    match decodeVarint (b :: bs) with
    | none => none
    | some (key, r) =>
      if 4294967295 < key then none
      else
        let tag := key / 8
        let wt := key % 8
        if 5 < wt then none
        else if tag = 0 then none
        else if tag = 1 then
          if wt = 0 then
            match decodeVarint r with
            | some (v, r2) => decodeLoop fuel ⟨i64OfU64 v, t.nanoseconds⟩ r2
            | none => none
          else none
        else if tag = 2 then
          if wt = 0 then
            match decodeVarint r with
            | some (v, r2) => decodeLoop fuel ⟨t.seconds, i32OfU64 v⟩ r2
            | none => none
          else none
        else
          match skipField (fuel + 1) wt tag r with
          | some r2 => decodeLoop fuel t r2
          | none => none

/-- The prost-derived `Message::encode` for `Timestamp`: field 1 (`int64`,
key byte `0x08`) holding `seconds as u64`, then field 2 (`int32`, key byte
`0x10`) holding `nanoseconds as u64` (sign-extended); a field equal to the
default 0 is skipped entirely. -/
def Timestamp.encode (t : Timestamp) : List Nat :=
  (if t.seconds = 0 then [] else encodeVarint 8 ++ encodeVarint (u64OfI64 t.seconds))
    ++ (if t.nanoseconds = 0 then [] else encodeVarint 16 ++ encodeVarint (u64OfI64 t.nanoseconds))

/-- The prost-derived `Message::decode` for `Timestamp`: run the merge loop
on the default value.  The initial fuel `length + 1` covers any input, since
every loop iteration consumes at least one byte. -/
def Timestamp.decode (bytes : List Nat) : Option Timestamp :=
  decodeLoop (bytes.length + 1) Timestamp.defaultValue bytes

/-- C7: for every Timestamp `t`, `is_empty` returns true iff both fields are
zero; in particular it is true on `{0,0}` and false on `{1,0}` and `{0,1}`. -/
theorem c7_is_empty (t : Timestamp) :
    (t.is_empty = true ↔ t.seconds = 0 ∧ t.nanoseconds = 0) ∧
    Timestamp.is_empty ⟨0, 0⟩ = true ∧
    Timestamp.is_empty ⟨1, 0⟩ = false ∧
    Timestamp.is_empty ⟨0, 1⟩ = false := by
  refine ⟨?_, by decide, by decide, by decide⟩
  simp [Timestamp.is_empty]

/-- Closed instance of `c7_is_empty` evaluated at the empty timestamp. -/
theorem c7_is_empty_witness : Timestamp.is_empty ⟨0, 0⟩ = true :=
  (c7_is_empty ⟨0, 0⟩).2.1

/-- C5: converting a Timestamp to signed 64-bit epoch seconds and back
preserves the seconds field and zeroes the nanoseconds field. -/
theorem c5_i64_roundtrip (t : Timestamp) :
    (Timestamp.from_i64 (Timestamp.into_i64 t)).seconds = t.seconds ∧
    (Timestamp.from_i64 (Timestamp.into_i64 t)).nanoseconds = 0 :=
  ⟨rfl, rfl⟩

/-- C6: building a Timestamp from a generated row identity fails with the
unsupported-construction error naming the operation, for every input, and
never succeeds. -/
theorem c6_try_from_u64_fails (n : Nat) :
    TryFromU64.try_from_u64 n =
      Except.error (DbErr.convertFromU64 timestampsNotSupported) ∧
    (TryFromU64.try_from_u64 n).isOk = false :=
  ⟨rfl, rfl⟩

/-- C1: `ValueType::try_from` is total (always `Ok`), and on every driver
value that is not one of the five recognized some-valued kinds (including
null payloads) it returns the empty Timestamp `{0, 0}`; this holds for every
abstracted double conversion `fconv`. -/
theorem c1_lenient_decode {α : Type} (fconv : α → Timestamp) (v : SqlValue α) :
    (ValueType.try_from fconv v).isOk = true ∧
    (matchesRecognized v = false →
      ValueType.try_from fconv v = Except.ok ⟨0, 0⟩) := by
  cases v <;> rename_i o <;> cases o <;>
    simp [ValueType.try_from, matchesRecognized, Timestamp.defaultValue,
      Except.isOk, Except.toBool]

/-- Closed instance of `c1_lenient_decode` at an unrecognized kind. -/
theorem c1_lenient_decode_witness :
    ValueType.try_from (fun _ : Unit => Timestamp.defaultValue)
      (SqlValue.bool (some true)) = Except.ok ⟨0, 0⟩ :=
  (c1_lenient_decode (fun _ : Unit => Timestamp.defaultValue)
    (SqlValue.bool (some true))).2 (by decide)

/-- C9: the encode-to-driver-value operation emits exactly the value kind the
active build-time encoding specifies, the null representation is the null of
that same kind, and in the default build (neither feature set) the emitted
kind is the UTC datetime and the null is the null UTC datetime. -/
theorem c9_storage_encoding (α : Type) (cfg : BuildCfg) (tconv : Timestamp → α)
    (t : Timestamp) :
    (valueOfTimestamp α cfg tconv t).kind = (activeEncoding cfg).valueKind ∧
    (nullValue α cfg).kind = (activeEncoding cfg).valueKind ∧
    (nullValue α cfg).isNull = true ∧
    (valueOfTimestamp α cfg tconv t).isNull = false ∧
    activeEncoding ⟨false, false⟩ = StorageEncoding.datetimeWithTimezone ∧
    valueOfTimestamp α ⟨false, false⟩ tconv t =
      SqlValue.chronoDateTimeUtc (some t.datetime) ∧
    nullValue α ⟨false, false⟩ = SqlValue.chronoDateTimeUtc none := by
  obtain ⟨d, i⟩ := cfg
  cases d <;> cases i <;>
    simp [valueOfTimestamp, nullValue, activeEncoding,
      StorageEncoding.valueKind, SqlValue.kind, SqlValue.isNull]

theorem from_timestamp_in_range (s n : Int) (h : calendarInRange s n) :
    DateTime.from_timestamp s (u32OfI32 n) =
      some ⟨s / 86400 + unixEpochDay, s % 86400, u32OfI32 n⟩ := by
  unfold calendarInRange at h
  unfold DateTime.from_timestamp
  rw [if_pos h]

theorem from_timestamp_out_of_range (s n : Int) (h : ¬ calendarInRange s n) :
    DateTime.from_timestamp s (u32OfI32 n) = none := by
  unfold calendarInRange at h
  unfold DateTime.from_timestamp
  rw [if_neg h]

/-- C2 (amended): for non-negative seconds up to the calendar maximum
8_210_266_876_799 and nanoseconds in `[0, 999_999_999]`, converting to a UTC
calendar datetime and back is the identity. -/
theorem c2_calendar_roundtrip (s n : Int) (hs0 : 0 ≤ s)
    (hs1 : s ≤ 8210266876799) (hn0 : 0 ≤ n) (hn1 : n ≤ 999999999) :
    Timestamp.from_datetime (Timestamp.datetime ⟨s, n⟩) = ⟨s, n⟩ := by
  have hu : u32OfI32 n = n := by
    unfold u32OfI32
    omega
  have hin : calendarInRange s n := by
    unfold calendarInRange minDayFromCE maxDayFromCE unixEpochDay
    rw [hu]
    omega
  simp only [Timestamp.datetime, from_timestamp_in_range s n hin, Option.getD_some]
  unfold Timestamp.from_datetime DateTimeUtc.timestamp
    DateTimeUtc.timestamp_subsec_nanos i32OfU32 unixEpochDay
  rw [hu]
  simp only [Timestamp.mk.injEq]
  constructor
  · omega
  · split <;> omega

/-- Closed instance of `c2_calendar_roundtrip` at a concrete instant. -/
theorem c2_calendar_roundtrip_witness :
    Timestamp.from_datetime (Timestamp.datetime ⟨1700000000, 500000000⟩) =
      ⟨1700000000, 500000000⟩ :=
  c2_calendar_roundtrip 1700000000 500000000 (by decide) (by decide)
    (by decide) (by decide)

/-- C2 as literally stated is false: the quantifier over all non-negative
seconds includes instants beyond the calendar range, where the conversion
falls back to the epoch and the round trip collapses to `{0, 0}`. -/
theorem c2_counterexample :
    ¬ (Timestamp.from_datetime (Timestamp.datetime ⟨9000000000000000000, 0⟩) =
      ⟨9000000000000000000, 0⟩) := by
  decide

/-- C3: the Timestamp-to-calendar conversion is total; inside the calendar
range it yields the instant with the original epoch seconds and the
`u32`-cast nanoseconds, and outside it yields the Unix epoch instant (whose
epoch seconds and nanoseconds are both 0). -/
theorem c3_calendar_total (s n : Int) :
    (calendarInRange s n →
      (Timestamp.datetime ⟨s, n⟩).timestamp = s ∧
      (Timestamp.datetime ⟨s, n⟩).timestamp_subsec_nanos = u32OfI32 n) ∧
    (¬ calendarInRange s n →
      Timestamp.datetime ⟨s, n⟩ = ⟨unixEpochDay, 0, 0⟩ ∧
      DateTimeUtc.timestamp ⟨unixEpochDay, 0, 0⟩ = 0 ∧
      DateTimeUtc.timestamp_subsec_nanos ⟨unixEpochDay, 0, 0⟩ = 0) := by
  constructor
  · intro h
    simp only [Timestamp.datetime, from_timestamp_in_range s n h, Option.getD_some]
    unfold DateTimeUtc.timestamp DateTimeUtc.timestamp_subsec_nanos
    constructor
    · simp only []
      omega
    · rfl
  · intro h
    simp only [Timestamp.datetime, from_timestamp_out_of_range s n h]
    refine ⟨?_, by decide, by decide⟩
    decide

/-- Closed instances of `c3_calendar_total`: an in-range pair reconstructs
its instant, and an out-of-range pair falls back to the epoch. -/
theorem c3_calendar_total_witness :
    (Timestamp.datetime ⟨5, 7⟩).timestamp = 5 ∧
    Timestamp.datetime ⟨5, -1⟩ = ⟨unixEpochDay, 0, 0⟩ :=
  ⟨((c3_calendar_total 5 7).1 (by decide)).1,
    ((c3_calendar_total 5 (-1)).2 (by decide)).1⟩

/-- C10 (amended): only a nanoseconds field that is negative or at least
2_000_000_000 makes the calendar conversion reject the `u32`-reinterpreted
value and take the epoch fallback, discarding the seconds; nanoseconds in
`[1e9, 2e9)` are accepted as leap-second representations. -/
theorem c10_nanos_fallback (s n : Int) (hlo : -2147483648 ≤ n)
    (hhi : n < 2147483648) (h : n < 0 ∨ 2000000000 ≤ n) :
    Timestamp.datetime ⟨s, n⟩ = ⟨unixEpochDay, 0, 0⟩ := by
  have hnone : DateTime.from_timestamp s (u32OfI32 n) = none := by
    apply from_timestamp_out_of_range
    unfold calendarInRange u32OfI32
    omega
  simp only [Timestamp.datetime, hnone]
  decide

/-- Closed instance of `c10_nanos_fallback` at a negative nanosecond count. -/
theorem c10_nanos_fallback_witness :
    Timestamp.datetime ⟨42, -1⟩ = ⟨unixEpochDay, 0, 0⟩ :=
  c10_nanos_fallback 42 (-1) (by decide) (by decide) (Or.inl (by decide))

/-- C10 as literally stated is false: nanoseconds = 1_500_000_000 (at least
1e9 but below 2e9) is accepted by the calendar construction as a leap-second
representation, so no epoch fallback happens. -/
theorem c10_counterexample :
    Timestamp.datetime ⟨42, 1500000000⟩ = ⟨unixEpochDay, 42, 1500000000⟩ ∧
    Timestamp.datetime ⟨42, 1500000000⟩ ≠ ⟨unixEpochDay, 0, 0⟩ := by
  constructor
  · decide
  · decide

theorem encodeVarint_small (n : Nat) (h : n < 128) : encodeVarint n = [n] := by
  unfold encodeVarint
  rw [dif_pos h]

theorem decodeVarint_single (b : Nat) (h : b < 128) (rest : List Nat) :
    decodeVarint (b :: rest) = some (b, rest) := by
  unfold decodeVarint decodeVarintAux
  rw [if_pos h, if_neg (by omega)]
  norm_num

theorem decodeVarintAux_encode (k : Nat) (i : Nat) (rest : List Nat)
    (hi : i ≤ 9) (hk : k < 2 ^ (64 - 7 * i)) :
    decodeVarintAux i (encodeVarint k ++ rest) = some (k * 128 ^ i, rest) := by
  induction k using Nat.strong_induction_on generalizing i with
  | _ k ih =>
    by_cases h : k < 128
    · rw [encodeVarint_small k h, List.cons_append, List.nil_append]
      unfold decodeVarintAux
      rw [if_pos h, if_neg ?notTenth]
      case notTenth =>
        rintro ⟨rfl, h2⟩
        norm_num at hk
        omega
    · rw [encodeVarint, dif_neg h, List.cons_append]
      unfold decodeVarintAux
      rw [if_neg (by omega)]
      have hi9 : i ≠ 9 := by
        intro hi9
        subst hi9
        norm_num at hk
        omega
      rw [if_neg hi9]
      have hdiv : k / 128 < 2 ^ (64 - 7 * (i + 1)) := by
        have he : 64 - 7 * i = (64 - 7 * (i + 1)) + 7 := by omega
        rw [he, pow_add] at hk
        refine (Nat.div_lt_iff_lt_mul (by norm_num)).mpr ?_
        calc k < 2 ^ (64 - 7 * (i + 1)) * 2 ^ 7 := hk
        _ = 2 ^ (64 - 7 * (i + 1)) * 128 := by norm_num
      rw [ih (k / 128) (Nat.div_lt_self (by omega) (by omega)) (i + 1)
        (by omega) hdiv]
      have hmod : (k % 128 + 128) % 128 = k % 128 := by omega
      rw [hmod]
      have hval : k % 128 * 128 ^ i + k / 128 * 128 ^ (i + 1) = k * 128 ^ i := by
        have hp : (128 : Nat) ^ (i + 1) = 128 ^ i * 128 := pow_succ 128 i
        rw [hp]
        have hr : k % 128 * 128 ^ i + k / 128 * (128 ^ i * 128) =
            (k % 128 + 128 * (k / 128)) * 128 ^ i := by ring
        rw [hr, Nat.mod_add_div]
      show some (k % 128 * 128 ^ i + k / 128 * 128 ^ (i + 1), rest) =
        some (k * 128 ^ i, rest)
      rw [hval]

theorem decodeVarint_encode (k : Nat) (rest : List Nat)
    (hk : k < 18446744073709551616) :
    decodeVarint (encodeVarint k ++ rest) = some (k, rest) := by
  have h := decodeVarintAux_encode k 0 rest (by omega) (by norm_num; omega)
  simpa [decodeVarint] using h

theorem decodeLoop_nil (f : Nat) (t : Timestamp) : decodeLoop f t [] = some t := by
  cases f <;> rfl

theorem decodeLoop_field1 (f : Nat) (hf : 1 ≤ f) (a b : Int) (v : Nat)
    (rest : List Nat) (hv : v < 18446744073709551616) :
    decodeLoop f ⟨a, b⟩ (8 :: (encodeVarint v ++ rest)) =
      decodeLoop (f - 1) ⟨i64OfU64 v, b⟩ rest := by
  obtain ⟨g, rfl⟩ : ∃ g, f = g + 1 := ⟨f - 1, by omega⟩
  simp only [Nat.add_sub_cancel]
  conv_lhs => unfold decodeLoop
  rw [decodeVarint_single 8 (by omega)]
  dsimp only
  norm_num
  rw [decodeVarint_encode v rest hv]

theorem decodeLoop_field2 (f : Nat) (hf : 1 ≤ f) (a b : Int) (v : Nat)
    (rest : List Nat) (hv : v < 18446744073709551616) :
    decodeLoop f ⟨a, b⟩ (16 :: (encodeVarint v ++ rest)) =
      decodeLoop (f - 1) ⟨a, i32OfU64 v⟩ rest := by
  obtain ⟨g, rfl⟩ : ∃ g, f = g + 1 := ⟨f - 1, by omega⟩
  simp only [Nat.add_sub_cancel]
  conv_lhs => unfold decodeLoop
  rw [decodeVarint_single 16 (by omega)]
  dsimp only
  norm_num
  rw [decodeVarint_encode v rest hv]

theorem decodeLoop_field1_last (f : Nat) (hf : 1 ≤ f) (a b : Int) (v : Nat)
    (hv : v < 18446744073709551616) :
    decodeLoop f ⟨a, b⟩ (8 :: encodeVarint v) = some ⟨i64OfU64 v, b⟩ := by
  have h := decodeLoop_field1 f hf a b v [] hv
  rw [List.append_nil] at h
  rw [h, decodeLoop_nil]

theorem decodeLoop_field2_last (f : Nat) (hf : 1 ≤ f) (a b : Int) (v : Nat)
    (hv : v < 18446744073709551616) :
    decodeLoop f ⟨a, b⟩ (16 :: encodeVarint v) = some ⟨a, i32OfU64 v⟩ := by
  have h := decodeLoop_field2 f hf a b v [] hv
  rw [List.append_nil] at h
  rw [h, decodeLoop_nil]

theorem u64OfI64_lt (s : Int) : u64OfI64 s < 18446744073709551616 := by
  unfold u64OfI64
  omega

theorem i64OfU64_u64OfI64 (s : Int) (h1 : -9223372036854775808 ≤ s)
    (h2 : s < 9223372036854775808) : i64OfU64 (u64OfI64 s) = s := by
  unfold i64OfU64 u64OfI64
  split <;> omega

theorem i32OfU64_u64OfI64 (n : Int) (h1 : -2147483648 ≤ n)
    (h2 : n < 2147483648) : i32OfU64 (u64OfI64 n) = n := by
  unfold i32OfU64 u64OfI64
  split <;> omega

/-- C8: the binary encode-decode round trip is exact for every `(seconds,
nanoseconds)` pair in the `i64`/`i32` ranges, including negative seconds and
zero nanoseconds (a zero field is omitted on the wire and restored as the
default on decode). -/
theorem c8_binary_roundtrip (s n : Int) (hs1 : -9223372036854775808 ≤ s)
    (hs2 : s < 9223372036854775808) (hn1 : -2147483648 ≤ n)
    (hn2 : n < 2147483648) :
    Timestamp.decode (Timestamp.encode ⟨s, n⟩) = some ⟨s, n⟩ := by
  have hse := i64OfU64_u64OfI64 s hs1 hs2
  have hne := i32OfU64_u64OfI64 n hn1 hn2
  have h8 : encodeVarint 8 = [8] := encodeVarint_small 8 (by omega)
  have h16 : encodeVarint 16 = [16] := encodeVarint_small 16 (by omega)
  by_cases hs0 : s = 0 <;> by_cases hn0 : n = 0
  · subst hs0
    subst hn0
    decide
  · subst hs0
    have henc : Timestamp.encode ⟨0, n⟩ = 16 :: encodeVarint (u64OfI64 n) := by
      simp [Timestamp.encode, hn0, h16]
    rw [henc]
    unfold Timestamp.decode Timestamp.defaultValue
    rw [decodeLoop_field2_last _ (by omega) _ _ _ (u64OfI64_lt n), hne]
  · subst hn0
    have henc : Timestamp.encode ⟨s, 0⟩ = 8 :: encodeVarint (u64OfI64 s) := by
      simp [Timestamp.encode, hs0, h8]
    rw [henc]
    unfold Timestamp.decode Timestamp.defaultValue
    rw [decodeLoop_field1_last _ (by omega) _ _ _ (u64OfI64_lt s), hse]
  · have henc : Timestamp.encode ⟨s, n⟩ =
        8 :: (encodeVarint (u64OfI64 s) ++ (16 :: encodeVarint (u64OfI64 n))) := by
      simp [Timestamp.encode, hs0, hn0, h8, h16]
    rw [henc]
    unfold Timestamp.decode Timestamp.defaultValue
    rw [decodeLoop_field1 _ (by omega) _ _ _ _ (u64OfI64_lt s)]
    rw [decodeLoop_field2_last _ ?hfuel _ _ _ (u64OfI64_lt n), hse, hne]
    case hfuel =>
      simp only [List.length_cons, List.length_append, Nat.add_sub_cancel]
      omega

/-- Closed instance of `c8_binary_roundtrip` at the pre-epoch instant
`{-5, 0}` from the spec scenarios. -/
theorem c8_binary_roundtrip_witness :
    Timestamp.decode (Timestamp.encode ⟨-5, 0⟩) = some ⟨-5, 0⟩ :=
  c8_binary_roundtrip (-5) 0 (by decide) (by decide) (by decide) (by decide)
